import Mathlib

/-!
Verification of the Stroop treadmill test trial engine (src/app.js).

The source is a single browser IIFE.  We shallow-embed its core here:
Math.random() draws are explicit inputs (`TrialRand`), the monotonic clock
`performance.now()` is a rational-valued parameter, `NaN` values arising
from `parseInt` / `parseFloat` are modelled as `none`, and DOM mutations are
reflected as fields of an explicit `Session` record.
-/

namespace Stroop

/-- Names of the fixed 4-color palette `COLORS` in src/app.js (the css values
are display-only and not modelled). -/
def COLORS : List String := ["RED", "BLUE", "GREEN", "YELLOW"]

/-- The name of the palette entry at index `i`: models `COLORS[i].name` where
`i = Math.floor(Math.random() * COLORS.length)` lies in 0..3. -/
def colorName (i : Fin 4) : String :=
  if i.val = 0 then "RED" else if i.val = 1 then "BLUE"
  else if i.val = 2 then "GREEN" else "YELLOW"

/-- The random values consumed by one iteration of the loop in
`generateTrials`: `u` is the `Math.random()` draw compared against the
incongruent rate, `draws` are the successive palette indices
`Math.floor(Math.random() * COLORS.length)` consumed by the color picks, and
`j` is the index drawn by `shuffle` on the 2-element choice array. -/
structure TrialRand where
  u : ℚ
  draws : List (Fin 4)
  j : Fin 2
deriving DecidableEq, Repr

/-- The re-draw loop `while (b === a) b = ...` inside
`pickTwoDifferentColorNames`: scan the pending index draws for the first
color differing from `a`.  `none` models the probability-zero event that the
supplied draws are exhausted before a distinct color appears. -/
def pickDiffFrom (a : String) : List (Fin 4) → Option String
  | [] => none
  | d :: ds => if colorName d = a then pickDiffFrom a ds else some (colorName d)

/-- `pickTwoDifferentColorNames` of src/app.js: draw `a`, then re-draw `b`
until it differs from `a`. -/
def pickTwoDifferentColorNames (ds : List (Fin 4)) : Option (String × String) :=
  match ds with
  | [] => none
  | d :: rest => (pickDiffFrom (colorName d) rest).map (fun b => (colorName d, b))

/-- `shuffle` of src/app.js applied to the 2-element array `[word, ink]`:
the single Fisher-Yates iteration (`i = 1`) swaps index 1 with a drawn index
`j ∈ {0, 1}`; `j = 0` reverses the pair and `j = 1` leaves it unchanged. -/
def shufflePair (j : Fin 2) (p : String × String) : String × String :=
  if j.val = 0 then (p.2, p.1) else p

/-- The draw `Math.random() < incongruentRate` in `generateTrials`.  A `none`
rate models NaN (a failed `parseFloat`), for which the comparison is false. -/
def bernoulliIncon (u : ℚ) (rate : Option ℚ) : Bool :=
  match rate with
  | none => false
  | some p => decide (u < p)

/-- A generated trial object, as pushed by `generateTrials`. -/
structure Trial where
  trial_index : Nat
  word : String
  ink : String
  congruency : String
  choice_left : String
  choice_right : String
  correct_answer : String
deriving DecidableEq, Repr

/-- One iteration of the loop in `generateTrials` (0-based index `i`):
Bernoulli draw, color pick (two distinct colors on success, one repeated
color on failure, via `r.draws.head?`), then the randomized left/right order
of the two choice labels. -/
def makeTrial (i : Nat) (rate : Option ℚ) (r : TrialRand) : Option Trial :=
  (if bernoulliIncon r.u rate then pickTwoDifferentColorNames r.draws
   else (r.draws.head?).map (fun d => (colorName d, colorName d))).map
    (fun wi =>
      let opts := shufflePair r.j wi
      { trial_index := i + 1, word := wi.1, ink := wi.2,
        congruency := if wi.1 = wi.2 then "congruent" else "incongruent",
        choice_left := opts.1, choice_right := opts.2,
        correct_answer := wi.2 })

/-- The loop of `generateTrials`, starting at loop index `i` with `n`
iterations remaining; one `TrialRand` is consumed per iteration. -/
def generateTrialsFrom : Nat → Nat → Option ℚ → List TrialRand → Option (List Trial)
  | _, 0, _, _ => some []
  | _, _ + 1, _, [] => none
  | i, n + 1, rate, r :: rs =>
    (makeTrial i rate r).bind (fun t =>
      (generateTrialsFrom (i + 1) n rate rs).map (fun ts => t :: ts))

/-- `generateTrials(n, incongruentRate)` of src/app.js. -/
def generateTrials (n : Nat) (rate : Option ℚ) (rs : List TrialRand) :
    Option (List Trial) :=
  generateTrialsFrom 0 n rate rs

/-! ### Speech normalization and mapping -/

/-- A `\w` character of the JS regexes: ASCII letter, digit or underscore. -/
def isWordChar (c : Char) : Bool := c.isAlpha || c.isDigit || c = '_'

/-- A `\s` character (the common ASCII whitespace forms). -/
def isSpaceChar (c : Char) : Bool := c = ' ' || c = '\t' || c = '\n' || c = '\r'

/-- The `.trim()` step of `normalizeSpeech`: strip leading and trailing
whitespace. -/
def trimL (l : List Char) : List Char :=
  ((l.dropWhile isSpaceChar).reverse.dropWhile isSpaceChar).reverse

/-- The `.replace(/\s+/g, ' ')` step of `normalizeSpeech`: collapse each
whitespace run into a single space. -/
def collapseWS : List Char → List Char
  | [] => []
  | [c] => if isSpaceChar c then [' '] else [c]
  | c :: c2 :: rest =>
    if isSpaceChar c && isSpaceChar c2 then collapseWS (c2 :: rest)
    else (if isSpaceChar c then ' ' else c) :: collapseWS (c2 :: rest)

/-- `normalizeSpeech` of src/app.js: lower-case, trim, strip characters
outside `[\w\s-]`, collapse whitespace runs. -/
def normalizeSpeech (s : String) : String :=
  String.mk
    (collapseWS
      ((trimL (s.data.map Char.toLower)).filter
        (fun c => isWordChar c || isSpaceChar c || c = '-')))

/-- The variant table of `mapSpeechToColor`, in source order. -/
def speechMap : List (String × String) :=
  [("red", "RED"), ("read", "RED"), ("blue", "BLUE"), ("blew", "BLUE"),
   ("green", "GREEN"), ("grain", "GREEN"), ("yellow", "YELLOW"),
   ("yello", "YELLOW")]

/-- List-of-characters version of `String.startsWith`. -/
def isPrefixL : List Char → List Char → Bool
  | [], _ => true
  | _ :: _, [] => false
  | a :: as, b :: bs => a = b && isPrefixL as bs

/-- Substring containment, models `t.includes(sub)`. -/
def isSubListL (sub : List Char) : List Char → Bool
  | [] => sub.isEmpty
  | c :: rest => isPrefixL sub (c :: rest) || isSubListL sub rest

/-- The phrase fallback of `mapSpeechToColor`:
`t.includes(' ' + k) || t.startsWith(k + ' ') || t.endsWith(' ' + k)`. -/
def speechContainMatch (t k : List Char) : Bool :=
  isSubListL (' ' :: k) t || isPrefixL (k ++ [' ']) t ||
    isPrefixL (' ' :: k).reverse t.reverse

/-- `mapSpeechToColor` of src/app.js: exact match against the variant table
first, then the containment fallback; `none` when no variant matches. -/
def mapSpeechToColor (transcript : String) : Option String :=
  let t := normalizeSpeech transcript
  match speechMap.find? (fun kv => t == kv.1) with
  | some kv => some kv.2
  | none =>
    (speechMap.find? (fun kv => speechContainMatch t.data kv.1.data)).map
      (fun kv => kv.2)

/-! ### Response arbitration (one armed trial) -/

/-- The per-trial arbitration state mutated by the two racing handlers
`onChoice` and `rec.onresult` of src/app.js (`state.answered`, the disabled
flag of the two choice buttons, and `state.recActive`).  `handoffs` records
the labels passed to `recordAnswer`, i.e. the Response Record hand-offs to
the aggregator. -/
structure ArbState where
  answered : Bool
  choicesLocked : Bool
  recActive : Bool
  handoffs : List String
deriving DecidableEq, Repr

/-- An input event racing to resolve the armed trial: a tap carrying its
button's `dataset.value` (the empty string while the stimulus is hidden), or
a speech recognition result whose top alternative transcript may be absent
(`event.results[0][0]` missing). -/
inductive ArbEvent
  | tap (v : String)
  | speech (res : Option String)
deriving DecidableEq, Repr

/-- `onChoice` of src/app.js: ignore empty values, check the `answered`
latch, then set it, lock the choices, stop recognition and hand the chosen
label to `recordAnswer`. -/
def onChoice (s : ArbState) (v : String) : ArbState :=
  if v = "" then s
  else if s.answered then s
  else { s with answered := true, choicesLocked := true, recActive := false,
                handoffs := s.handoffs ++ [v] }

/-- `rec.onresult` of src/app.js: check the `answered` latch, map the
transcript; on a successful mapping lock the choices, set the latch, stop
recognition and hand the mapped label to `recordAnswer`; otherwise do
nothing (tap remains available). -/
def recOnResult (s : ArbState) (res : Option String) : ArbState :=
  if s.answered then s
  else
    match mapSpeechToColor (res.getD "") with
    | some mapped =>
      { s with choicesLocked := true, answered := true, recActive := false,
               handoffs := s.handoffs ++ [mapped] }
    | none => s

/-- Dispatch one event to its handler. -/
def applyArbEvent (s : ArbState) : ArbEvent → ArbState
  | .tap v => onChoice s v
  | .speech res => recOnResult s res

/-- Dispatch a sequence of events in order. -/
def runArbEvents (s : ArbState) (es : List ArbEvent) : ArbState :=
  es.foldl applyArbEvent s

/-- The arbitration state the instant a trial is armed: `presentTrial` set
`state.answered = false` and its timeout callback unlocked the choices; no
hand-off has happened yet for this trial. -/
def armedArb : ArbState :=
  { answered := false, choicesLocked := false, recActive := false,
    handoffs := [] }

/-- The label an event would resolve to, if any: a tap resolves to its
non-empty dataset value, a speech result resolves through
`mapSpeechToColor`. -/
def eventLabel : ArbEvent → Option String
  | .tap v => if v = "" then none else some v
  | .speech res => mapSpeechToColor (res.getD "")

/-- The label of the first event in the sequence that resolves at all. -/
def firstLabel : List ArbEvent → Option String
  | [] => none
  | e :: es =>
    match eventLabel e with
    | some l => some l
    | none => firstLabel es

/-! ### Summary statistics (`median`, `mean`, `finish`) -/

/-- Insertion step for the ascending sort below. -/
def insertAsc (x : ℚ) : List ℚ → List ℚ
  | [] => [x]
  | y :: ys => if x ≤ y then x :: y :: ys else y :: insertAsc x ys

/-- Ascending sort, models `[...values].sort((x, y) => x - y)`. -/
def sortAsc : List ℚ → List ℚ
  | [] => []
  | x :: xs => insertAsc x (sortAsc xs)

/-- `median` of src/app.js; `none` models the NaN returned for an empty
list.  For a non-empty list the indices `mid` (and `mid - 1` in the even
case) are in range, so the `getD` defaults are never used. -/
def median (values : List ℚ) : Option ℚ :=
  if values.length = 0 then none
  else
    let a := sortAsc values
    let mid := a.length / 2
    if a.length % 2 = 1 then some (a.getD mid 0)
    else some ((a.getD (mid - 1) 0 + a.getD mid 0) / 2)

/-- `mean` of src/app.js; `none` models the NaN returned for an empty
list. -/
def mean (values : List ℚ) : Option ℚ :=
  if values.length = 0 then none
  else some ((values.foldl (fun s v => s + v) 0) / values.length)

/-- A Response Record as pushed by `recordAnswer` of src/app.js.  Reaction
times are whole milliseconds (`Math.round`), hence `ℤ`. -/
structure Record where
  timestamp_local : String
  participant_id : String
  condition : String
  treadmill_speed : String
  notes : String
  trial : Nat
  word : String
  ink_colour : String
  congruency : String
  choice_left : String
  choice_right : String
  correct_answer : String
  response : String
  correct : Nat
  rt_ms : ℤ
deriving DecidableEq, Repr

/-- The number of correct records, i.e. the value of
`results.reduce((s, r) => s + (r.correct ? 1 : 0), 0)`. -/
def countCorrect (results : List Record) : Nat :=
  (results.filter (fun r => r.correct != 0)).length

/-- The three summary values computed by `finish` of src/app.js and shown on
the done screen: accuracy percentage, mean RT and median RT, each rounded by
`Math.round`; `none` models the em-dash sentinel shown when the
corresponding list is empty.  Records carry integer `rt_ms` values, so the
`Number.isFinite` filter keeps every element and `rts` is just the list of
reaction times. -/
def finishDisplay (results : List Record) : Option ℤ × Option ℤ × Option ℤ :=
  let rts : List ℚ := results.map (fun r => (r.rt_ms : ℚ))
  let acc : ℚ :=
    if results.length = 0 then 0
    else (results.foldl (fun s r => s + (if r.correct ≠ 0 then 1 else 0)) 0) /
      results.length
  ( if results.length = 0 then none else some (round (acc * 100)),
    if rts.length = 0 then none else (mean rts).map round,
    if rts.length = 0 then none else (median rts).map round )

/-! ### CSV export (`toCSV`) and an RFC4180-style reader -/

/-- A character forcing quoting in `toCSV`: the regex test `/[",\n]/`. -/
def isCsvSpecial (c : Char) : Bool := c = '"' || c = ',' || c = '\n'

/-- The `.replace(/"/g, '""')` step of `esc`: double every quote. -/
def dqL : List Char → List Char
  | [] => []
  | c :: cs => if c = '"' then '"' :: '"' :: dqL cs else c :: dqL cs

/-- `esc` of `toCSV` on the characters of a string value: wrap in double
quotes, with inner quotes doubled, exactly when the value contains a comma,
quote or newline. -/
def escL (l : List Char) : List Char :=
  if l.any isCsvSpecial then '"' :: (dqL l ++ ['"']) else l

/-- `esc` of `toCSV` on string values. -/
def escString (s : String) : String := String.mk (escL s.data)

/-- `esc` applied to the field lookup `r[h]`: a missing key (undefined, and
likewise null) becomes the empty string. -/
def escValue (v : Option String) : String :=
  match v with
  | none => ""
  | some s => escString s

/-- A JS object, as its ordered (key, value) fields. -/
abbrev Row := List (String × String)

/-- The field access `r[h]`: `none` when the key is absent. -/
def rowGet (r : Row) (h : String) : Option String :=
  (r.find? (fun kv => kv.1 == h)).map (fun kv => kv.2)

/-- `toCSV` of src/app.js: header row of the first record's field names,
then one row per record with the same fields in the same order, all joined
by newlines. -/
def toCSV (rows : List Row) : String :=
  match rows with
  | [] => ""
  | r0 :: _ =>
    let headers := r0.map (fun kv => kv.1)
    String.intercalate "\n"
      ((String.intercalate "," (headers.map (fun h => escString h))) ::
        rows.map (fun r =>
          String.intercalate ","
            (headers.map (fun h => escValue (rowGet r h)))))

/-- Modelled from the spec: the repository ships no CSV parser, so the
"standard (RFC4180-style) CSV reader" of the round-trip property is embedded
here.  Collapse each doubled quote of a quoted field body back to a single
quote. -/
def undoubleL : List Char → List Char
  | [] => []
  | [c] => [c]
  | c :: c2 :: rest =>
    if c = '"' ∧ c2 = '"' then '"' :: undoubleL rest
    else c :: undoubleL (c2 :: rest)

/-- Modelled from the spec: how a standard RFC4180 reader interprets one
field of delimited text.  A field starting with a double quote has its
surrounding quotes stripped and doubled inner quotes collapsed; any other
field is read verbatim. -/
def readFieldL (l : List Char) : List Char :=
  match l with
  | [] => []
  | c :: rest => if c = '"' then undoubleL rest.dropLast else c :: rest

/-- String version of `readFieldL`. -/
def readField (s : String) : String := String.mk (readFieldL s.data)
/-! ### Session state and the state machine -/

/-- `state.participant` of src/app.js. -/
structure Participant where
  id : String
  condition : String
  speed : String
  notes : String
deriving DecidableEq, Repr

/-- `state.settings` of src/app.js.  `nTrials` is the result of `parseInt`
and `inconRate` the result of `parseFloat` on the input fields; `none`
models NaN. -/
structure Settings where
  nTrials : Option Int
  inconRate : Option ℚ
  beep : Bool
  practice : Bool
  voice : Bool
deriving DecidableEq, Repr

/-- The mutable `state` object of src/app.js together with the pieces of DOM
the handlers read back (the choice buttons' disabled flags and dataset
values) and the pending presentation `setTimeout` with the trial it
captured.  `recog` models `state.rec` (whether a recognizer object exists;
the app never assigns one, so it is `false` in every reachable state). -/
structure Session where
  participant : Participant
  settings : Settings
  phase : String
  trials : List Trial
  results : List Record
  idx : Nat
  t0 : ℚ
  recog : Bool
  recActive : Bool
  answered : Bool
  choicesLocked : Bool
  choiceValues : String × String
  pendingTimer : Option Trial
deriving DecidableEq, Repr

/-- `stopRecognition` of src/app.js: `rec.stop()` is a DOM side effect; the
state mutation is `state.recActive = false`. -/
def stopRecognition (s : Session) : Session := { s with recActive := false }

/-- `startRecognitionForTrial` of src/app.js: returns immediately unless the
voice flag is set and a recognizer object exists; otherwise stops any prior
session, marks it active again, installs the handlers and starts it. -/
def startRecognitionForTrial (s : Session) : Session :=
  if s.settings.voice && s.recog then { s with recActive := true } else s

/-- `startPhase` of src/app.js. -/
def startPhase (s : Session) (phase : String) : Session :=
  { s with phase := phase, idx := 0, results := [] }

/-- The state mutation performed by `finish` of src/app.js (the summary
display is `finishDisplay` above).  Note that `finish` does not assign
`state.phase`. -/
def finishSession (s : Session) : Session := stopRecognition s

/-- The trip count of the `for (let i = 0; i < n; i++)` loop in
`generateTrials` for the stored `nTrials` value: a NaN bound (as well as a
non-positive one) lets the loop body run zero times. -/
def trialCount : Option Int → Nat
  | none => 0
  | some z => z.toNat

/-- The arming steps of `presentTrial` for a current trial: clear the
`answered` latch, lock and blank the choice controls, and schedule the
presentation timeout capturing the trial (the callback is
`presentTimerFire`). -/
def armTrial (s : Session) (trial : Trial) : Session :=
  { s with answered := false, choicesLocked := true,
           choiceValues := ("", ""), pendingTimer := some trial }

/-- `startPhase` followed by the assignment
`state.trials = generateTrials(...)`, as done in `startTest` and in the
practice-to-test transition of `presentTrial`. -/
def startBatch (s : Session) (phase : String) (ts : List Trial) : Session :=
  { startPhase s phase with trials := ts }

/-- The synchronous part of `presentTrial` of src/app.js: with a current
trial, arm it; with no current trial, either perform the practice-to-test
transition (start the test phase on a freshly generated batch of the
configured size and re-enter `presentTrial`, which then cannot hit this
branch again) or call `finish`.  `none` models exhaustion of the supplied
random draws during regeneration. -/
def presentTrialSync (s : Session) (rand : List TrialRand) : Option Session :=
  match s.trials[s.idx]? with
  | some trial => some (armTrial s trial)
  | none =>
    if s.phase = "practice" then
      (generateTrials (trialCount s.settings.nTrials) s.settings.inconRate
          rand).bind
        (fun ts =>
          let s1 := startBatch s "test" ts
          match ts[0]? with
          | some trial => some (armTrial s1 trial)
          | none => some (finishSession s1))
    else some (finishSession s)

/-- The state mutation of the `setTimeout` callback of `presentTrial`,
before it calls `startRecognitionForTrial`: reveal the captured trial (set
the choice buttons' labels and dataset values), unlock the choices and
record the stimulus-onset clock reading `now` into `state.t0`. -/
def revealTrial (s : Session) (trial : Trial) (now : ℚ) : Session :=
  { s with choiceValues := (trial.choice_left, trial.choice_right),
           choicesLocked := false, t0 := now, pendingTimer := none }

/-- The full `setTimeout` callback scheduled by `presentTrial`: reveal and
unlock, stamp `t0`, then `startRecognitionForTrial`.  It performs no phase
check. -/
def presentTimerFire (s : Session) (trial : Trial) (now : ℚ) : Session :=
  startRecognitionForTrial (revealTrial s trial now)

/-- The Response Record built by `recordAnswer` of src/app.js; `ts` models
`nowISO()` and `t1` the `performance.now()` reading at the response. -/
def mkRecord (s : Session) (trial : Trial) (chosen : String) (t1 : ℚ)
    (ts : String) : Record :=
  { timestamp_local := ts,
    participant_id := s.participant.id,
    condition := s.participant.condition,
    treadmill_speed := s.participant.speed,
    notes := s.participant.notes,
    trial := trial.trial_index,
    word := trial.word,
    ink_colour := trial.ink,
    congruency := trial.congruency,
    choice_left := trial.choice_left,
    choice_right := trial.choice_right,
    correct_answer := trial.correct_answer,
    response := chosen,
    correct := if chosen = trial.correct_answer then 1 else 0,
    rt_ms := round (t1 - s.t0) }

/-- The push `state.results.push({...})` in `recordAnswer`. -/
def pushRecord (s : Session) (r : Record) : Session :=
  { s with results := s.results ++ [r] }

/-- The advance `state.idx += 1` in `recordAnswer`. -/
def advanceIdx (s : Session) : Session := { s with idx := s.idx + 1 }

/-- `recordAnswer` of src/app.js: stop recognition, build the record from
`state.t0`, push it only in the test phase, advance the index and re-enter
`presentTrial`.  `none` models the JS type error of reading
`trial.correct_answer` with no current trial, which the app flow never
reaches. -/
def recordAnswer (s : Session) (chosen : String) (t1 : ℚ) (ts : String)
    (rand : List TrialRand) : Option Session :=
  match s.trials[s.idx]? with
  | none => none
  | some trial =>
    let s1 := stopRecognition s
    let s2 :=
      if s1.phase = "test" then pushRecord s1 (mkRecord s1 trial chosen t1 ts)
      else s1
    presentTrialSync (advanceIdx s2) rand

/-- The `btnAbort` click handler of src/app.js: stop recognition (the source
calls it twice), return to the setup phase and clear the trial and result
lists.  The pending presentation timeout is not cleared. -/
def abortClick (s : Session) : Session :=
  { stopRecognition (stopRecognition s) with
    phase := "setup", trials := [], results := [] }

/-- The `btnRestart` click handler of src/app.js (same reset as abort). -/
def restartClick (s : Session) : Session :=
  { stopRecognition s with phase := "setup", trials := [], results := [] }

/-- The values `startTest` reads from the input fields: the free-text
participant data, the three flags, and the `parseInt` / `parseFloat` results
(`none` models NaN). -/
structure RawInputs where
  pid : String
  condition : String
  speed : String
  notes : String
  beep : Bool
  voice : Bool
  practice : Bool
  nTrialsVal : Option Int
  inconRateVal : Option ℚ
deriving DecidableEq, Repr

/-- The assignments at the top of `startTest` copying the input fields into
`state.participant` and `state.settings`, with no validation or clamping. -/
def applyInputs (s : Session) (inp : RawInputs) : Session :=
  { s with
    participant := { id := inp.pid, condition := inp.condition,
                     speed := inp.speed, notes := inp.notes },
    settings := { nTrials := inp.nTrialsVal, inconRate := inp.inconRateVal,
                  beep := inp.beep, practice := inp.practice,
                  voice := inp.voice } }

/-- `startTest` of src/app.js: copy the inputs, then start the practice
phase with a batch of literal size 2, or the test phase with a batch of the
configured size, and present the first trial. -/
def startTest (s : Session) (inp : RawInputs) (rand : List TrialRand) :
    Option Session :=
  let s1 := applyInputs s inp
  if inp.practice then
    (generateTrials 2 inp.inconRateVal rand).bind (fun ts =>
      presentTrialSync (startBatch s1 "practice" ts) rand)
  else
    (generateTrials (trialCount inp.nTrialsVal) inp.inconRateVal rand).bind
      (fun ts => presentTrialSync (startBatch s1 "test" ts) rand)

/-- The initial `state` literal of src/app.js. -/
def sInit : Session :=
  { participant := { id := "", condition := "walk", speed := "", notes := "" },
    settings := { nTrials := some 10, inconRate := some (7/10), beep := true,
                  practice := false, voice := false },
    phase := "setup", trials := [], results := [], idx := 0, t0 := 0,
    recog := false, recActive := false, answered := false,
    choicesLocked := false, choiceValues := ("", ""), pendingTimer := none }

/-! ### Concrete values used by witnesses and counterexamples -/

/-- Concrete generator randomness for the C3 witness. -/
def rsC3 : List TrialRand := [⟨0, [0, 1], 0⟩]

/-- The trial generated from `rsC3`. -/
def tC3 : Trial :=
  { trial_index := 1, word := "RED", ink := "BLUE", congruency := "incongruent",
    choice_left := "BLUE", choice_right := "RED", correct_answer := "BLUE" }

/-- Concrete per-trial randomness for the C4 witness. -/
def rC4 : TrialRand := ⟨0, [0, 1], 1⟩

/-- The trial generated from `rC4` at loop index 0. -/
def tC4 : Trial :=
  { trial_index := 1, word := "RED", ink := "BLUE", congruency := "incongruent",
    choice_left := "RED", choice_right := "BLUE", correct_answer := "BLUE" }

/-- The batch generated from three copies of `rC4` at rate 1. -/
def tsC4 : List Trial :=
  [tC4, { tC4 with trial_index := 2 }, { tC4 with trial_index := 3 }]

/-- Concrete event sequence for the C1 witness: an unmappable speech result,
a tap on RED, then a late mappable speech result and a late tap. -/
def esC1 : List ArbEvent :=
  [ArbEvent.speech (some "uh"), ArbEvent.tap "RED",
   ArbEvent.speech (some "blue"), ArbEvent.tap "GREEN"]

/-- An arbitration state whose latch is already set. -/
def arbDone : ArbState :=
  { answered := true, choicesLocked := true, recActive := false,
    handoffs := ["RED"] }

/-- Inputs for the C10 witness: practice enabled with a configured test
count of 5. -/
def inpC10 : RawInputs :=
  { pid := "", condition := "walk", speed := "", notes := "", beep := false,
    voice := false, practice := true, nTrialsVal := some 5,
    inconRateVal := some 1 }

/-- The session state after starting the C10 witness run. -/
def sC10 : Session :=
  (startTest sInit inpC10 [⟨0, [0, 1], 0⟩, ⟨0, [0, 1], 0⟩]).getD sInit

/-- Invalid inputs for C7: a non-numeric trial count (`parseInt` gives NaN)
and an out-of-range incongruent rate of 2.0. -/
def inpBad : RawInputs :=
  { pid := "", condition := "walk", speed := "", notes := "", beep := false,
    voice := false, practice := false, nTrialsVal := none,
    inconRateVal := some 2 }

/-- The session state after starting the invalid C7 run. -/
def sBad7 : Session := (startTest sInit inpBad []).getD sInit

/-- The trial presented in the C5 witness. -/
def trialW5 : Trial :=
  { trial_index := 1, word := "RED", ink := "BLUE",
    congruency := "incongruent", choice_left := "RED", choice_right := "BLUE",
    correct_answer := "BLUE" }

/-- A test-phase session about to record an answer to `trialW5`.  Its
settings use integer-valued rationals so that witnesses evaluate. -/
def sTest5 : Session :=
  { sInit with
    settings := { nTrials := some 1, inconRate := some 1, beep := false,
                  practice := false, voice := false },
    phase := "test", trials := [trialW5], t0 := 100 }

/-- The session after recording the C5 witness answer. -/
def sAfter5 : Session := (recordAnswer sTest5 "BLUE" 450 "t" []).getD sInit

/-- The trial used by the C2 witness. -/
def trialW2 : Trial :=
  { trial_index := 1, word := "GREEN", ink := "YELLOW",
    congruency := "incongruent", choice_left := "YELLOW",
    choice_right := "GREEN", correct_answer := "YELLOW" }

/-- A test-phase session about to present `trialW2`. -/
def sPre2 : Session :=
  { sInit with
    settings := { nTrials := some 1, inconRate := some 1, beep := false,
                  practice := false, voice := false },
    phase := "test", trials := [trialW2] }

/-- The session after the scheduling half of `presentTrial` on `sPre2`. -/
def sSched2 : Session := (presentTrialSync sPre2 []).getD sInit

/-- The trial captured by the outstanding timer in the C6 scenario. -/
def trialC6 : Trial :=
  { trial_index := 1, word := "GREEN", ink := "RED",
    congruency := "incongruent", choice_left := "RED", choice_right := "GREEN",
    correct_answer := "RED" }

/-- A mid-run test-phase session with an outstanding presentation timer. -/
def sRun6 : Session :=
  { sInit with
    phase := "test", trials := [trialC6],
    pendingTimer := some trialC6, t0 := 100 }

/-- First example record of the C8 example list: rt 100 ms, correct. -/
def recA : Record :=
  { timestamp_local := "", participant_id := "", condition := "",
    treadmill_speed := "", notes := "", trial := 1, word := "RED",
    ink_colour := "BLUE", congruency := "incongruent", choice_left := "RED",
    choice_right := "BLUE", correct_answer := "BLUE", response := "BLUE",
    correct := 1, rt_ms := 100 }

/-- Second example record of the C8 example list: rt 300 ms, incorrect. -/
def recB : Record :=
  { recA with
    trial := 2, response := "RED", correct := 0, rt_ms := 300 }

/-- Third example record, for the odd-length median case: rt 250 ms,
correct. -/
def recC : Record :=
  { recA with
    trial := 3, rt_ms := 250 }

/-- A value containing a comma, a quote and a newline, for the CSV
round-trip witness. -/
def csvProbe : String := "a,\"b\"\nc"

/-! ## Helper lemmas -/

theorem stopRecognition_phase (s : Session) :
    (stopRecognition s).phase = s.phase := rfl

theorem stopRecognition_results (s : Session) :
    (stopRecognition s).results = s.results := rfl

theorem armTrial_phase (s : Session) (t : Trial) :
    (armTrial s t).phase = s.phase := rfl

theorem armTrial_trials (s : Session) (t : Trial) :
    (armTrial s t).trials = s.trials := rfl

theorem startBatch_phase (s : Session) (p : String) (ts : List Trial) :
    (startBatch s p ts).phase = p := rfl

theorem startBatch_trials (s : Session) (p : String) (ts : List Trial) :
    (startBatch s p ts).trials = ts := rfl

theorem startBatch_idx (s : Session) (p : String) (ts : List Trial) :
    (startBatch s p ts).idx = 0 := rfl

theorem startBatch_settings (s : Session) (p : String) (ts : List Trial) :
    (startBatch s p ts).settings = s.settings := rfl

theorem applyInputs_settings (s : Session) (inp : RawInputs) :
    (applyInputs s inp).settings =
      { nTrials := inp.nTrialsVal, inconRate := inp.inconRateVal,
        beep := inp.beep, practice := inp.practice, voice := inp.voice } := rfl

theorem advanceIdx_phase (s : Session) : (advanceIdx s).phase = s.phase := rfl

theorem advanceIdx_results (s : Session) :
    (advanceIdx s).results = s.results := rfl

theorem pushRecord_phase (s : Session) (r : Record) :
    (pushRecord s r).phase = s.phase := rfl

theorem pushRecord_results (s : Session) (r : Record) :
    (pushRecord s r).results = s.results ++ [r] := rfl

theorem revealTrial_t0 (s : Session) (t : Trial) (now : ℚ) :
    (revealTrial s t now).t0 = now := rfl

theorem revealTrial_recog (s : Session) (t : Trial) (now : ℚ) :
    (revealTrial s t now).recog = s.recog := rfl

theorem abortClick_recog (s : Session) : (abortClick s).recog = s.recog := rfl

theorem mkRecord_stopRecognition (s : Session) (trial : Trial)
    (chosen : String) (t1 : ℚ) (ts : String) :
    mkRecord (stopRecognition s) trial chosen t1 ts =
      mkRecord s trial chosen t1 ts := rfl

theorem startRecognitionForTrial_t0 (s : Session) :
    (startRecognitionForTrial s).t0 = s.t0 := by
  simp only [startRecognitionForTrial]
  split <;> rfl

theorem startRecognitionForTrial_of_norec (s : Session) (h : s.recog = false) :
    startRecognitionForTrial s = s := by
  simp [startRecognitionForTrial, h]

theorem pickDiffFrom_ne (a : String) :
    ∀ (ds : List (Fin 4)) (b : String), pickDiffFrom a ds = some b → b ≠ a := by
  intro ds
  induction ds with
  | nil => intro b h; simp [pickDiffFrom] at h
  | cons d ds ih =>
    intro b h
    by_cases hd : colorName d = a
    · exact ih b (by simpa [pickDiffFrom, hd] using h)
    · have hb : b = colorName d := by simpa [pickDiffFrom, hd] using h.symm
      simpa [hb] using hd

theorem pickTwo_ne (ds : List (Fin 4)) (w k : String)
    (h : pickTwoDifferentColorNames ds = some (w, k)) : w ≠ k := by
  cases ds with
  | nil => simp [pickTwoDifferentColorNames] at h
  | cons d rest =>
    simp only [pickTwoDifferentColorNames, Option.map_eq_some'] at h
    obtain ⟨b, hb, hwk⟩ := h
    have hw : colorName d = w := congrArg Prod.fst hwk
    have hk : b = k := congrArg Prod.snd hwk
    intro hwe
    exact pickDiffFrom_ne _ rest b hb (hk.trans (hwe.symm.trans hw.symm))

theorem makeTrial_spec (i : Nat) (rate : Option ℚ) (r : TrialRand) (t : Trial)
    (h : makeTrial i rate r = some t) :
    (t.congruency = "congruent" ↔ t.word = t.ink) ∧
    t.correct_answer = t.ink ∧
    ({t.choice_left, t.choice_right} : Multiset String) = {t.word, t.ink} := by
  simp only [makeTrial, Option.map_eq_some'] at h
  obtain ⟨wi, _, ht⟩ := h
  subst ht
  refine ⟨?_, rfl, ?_⟩
  · by_cases hwe : wi.1 = wi.2 <;> simp [hwe]
  · simp only [shufflePair]
    by_cases hj : r.j.val = 0
    · simp only [hj, if_pos rfl]
      exact Multiset.cons_swap _ _ _
    · simp [hj]

theorem makeTrial_incon (i : Nat) (rate : Option ℚ) (r : TrialRand) (t : Trial)
    (h : makeTrial i rate r = some t) (hb : bernoulliIncon r.u rate = true) :
    t.word ≠ t.ink := by
  simp only [makeTrial, hb, if_pos, Option.map_eq_some'] at h
  obtain ⟨wi, hwi, ht⟩ := h
  subst ht
  exact pickTwo_ne r.draws wi.1 wi.2 (by simpa using hwi)

theorem gtf_length :
    ∀ (n i : Nat) (rate : Option ℚ) (rs : List TrialRand) (ts : List Trial),
      generateTrialsFrom i n rate rs = some ts → ts.length = n := by
  intro n
  induction n with
  | zero =>
    intro i rate rs ts h
    simp only [generateTrialsFrom, Option.some_inj] at h
    simp [← h]
  | succ n ih =>
    intro i rate rs ts h
    cases rs with
    | nil => simp [generateTrialsFrom] at h
    | cons r rs =>
      simp only [generateTrialsFrom, Option.bind_eq_some, Option.map_eq_some'] at h
      obtain ⟨t, _, ts', hts', rfl⟩ := h
      simpa using ih (i + 1) rate rs ts' hts'

theorem gtf_mem :
    ∀ (n i : Nat) (rate : Option ℚ) (rs : List TrialRand) (ts : List Trial),
      generateTrialsFrom i n rate rs = some ts →
      ∀ t ∈ ts, ∃ (i' : Nat) (r : TrialRand), r ∈ rs ∧ makeTrial i' rate r = some t := by
  intro n
  induction n with
  | zero =>
    intro i rate rs ts h t ht
    simp only [generateTrialsFrom, Option.some_inj] at h
    rw [← h] at ht
    simp at ht
  | succ n ih =>
    intro i rate rs ts h t ht
    cases rs with
    | nil => simp [generateTrialsFrom] at h
    | cons r rs =>
      simp only [generateTrialsFrom, Option.bind_eq_some, Option.map_eq_some'] at h
      obtain ⟨t0, ht0, ts', hts', rfl⟩ := h
      rcases List.mem_cons.mp ht with rfl | hmem
      · exact ⟨i, r, List.mem_cons_self r rs, ht0⟩
      · obtain ⟨i', r', hr', hm⟩ := ih (i + 1) rate rs ts' hts' t hmem
        exact ⟨i', r', List.mem_cons_of_mem r hr', hm⟩

theorem presentTrialSync_of_get (s : Session) (rand : List TrialRand)
    (trial : Trial) (h : s.trials[s.idx]? = some trial) :
    presentTrialSync s rand = some (armTrial s trial) := by
  simp [presentTrialSync, h]

theorem presentTrialSync_spec (s : Session) (rand : List TrialRand)
    (s' : Session) (h : presentTrialSync s rand = some s')
    (hc : s.phase ≠ "practice" ∨ (s.trials[s.idx]?).isSome = true) :
    s'.settings = s.settings ∧ s'.phase = s.phase ∧ s'.trials = s.trials ∧
    s'.results = s.results ∧ s'.t0 = s.t0 := by
  cases hget : s.trials[s.idx]? with
  | some trial =>
    rw [presentTrialSync_of_get s rand trial hget] at h
    simp only [Option.some_inj] at h
    subst h
    exact ⟨rfl, rfl, rfl, rfl, rfl⟩
  | none =>
    have hp : s.phase ≠ "practice" := by
      rcases hc with hp | hsome
      · exact hp
      · rw [hget] at hsome; simp at hsome
    rw [show presentTrialSync s rand = some (finishSession s) from by
      simp [presentTrialSync, hget, hp]] at h
    simp only [Option.some_inj] at h
    subst h
    exact ⟨rfl, rfl, rfl, rfl, rfl⟩

theorem presentTrialSync_shape (s : Session) (rand : List TrialRand)
    (s' : Session) (h : presentTrialSync s rand = some s') :
    s'.t0 = s.t0 ∧ (s'.results = s.results ∨ s'.results = []) := by
  cases hget : s.trials[s.idx]? with
  | some trial =>
    rw [presentTrialSync_of_get s rand trial hget] at h
    simp only [Option.some_inj] at h
    subst h
    exact ⟨rfl, Or.inl rfl⟩
  | none =>
    by_cases hp : s.phase = "practice"
    · simp only [presentTrialSync, hget, hp, if_pos, Option.bind_eq_some] at h
      obtain ⟨ts, _, hinner⟩ := h
      cases h0 : ts[0]? with
      | some trial =>
        rw [h0] at hinner
        simp only [Option.some_inj] at hinner
        subst hinner
        exact ⟨rfl, Or.inr rfl⟩
      | none =>
        rw [h0] at hinner
        simp only [Option.some_inj] at hinner
        subst hinner
        exact ⟨rfl, Or.inr rfl⟩
    · rw [show presentTrialSync s rand = some (finishSession s) from by
        simp [presentTrialSync, hget, hp]] at h
      simp only [Option.some_inj] at h
      subst h
      exact ⟨rfl, Or.inl rfl⟩

theorem applyArb_of_answered (s : ArbState) (e : ArbEvent)
    (h : s.answered = true) : applyArbEvent s e = s := by
  cases e with
  | tap v => simp [applyArbEvent, onChoice, h]
  | speech res => simp [applyArbEvent, recOnResult, h]

theorem applyArb_of_none (s : ArbState) (e : ArbEvent)
    (h : eventLabel e = none) : applyArbEvent s e = s := by
  cases e with
  | tap v =>
    by_cases hv : v = ""
    · simp [applyArbEvent, onChoice, hv]
    · simp [eventLabel, hv] at h
  | speech res =>
    simp only [eventLabel] at h
    cases hs : s.answered <;> simp [applyArbEvent, recOnResult, hs, h]

theorem applyArb_of_some (s : ArbState) (e : ArbEvent) (l : String)
    (hs : s.answered = false) (h : eventLabel e = some l) :
    applyArbEvent s e =
      { s with answered := true, choicesLocked := true, recActive := false,
               handoffs := s.handoffs ++ [l] } := by
  cases e with
  | tap v =>
    have hv : v ≠ "" := by intro hv; simp [eventLabel, hv] at h
    have hl : v = l := by simpa [eventLabel, hv] using h
    subst hl
    simp [applyArbEvent, onChoice, hv, hs]
  | speech res =>
    simp only [eventLabel] at h
    simp [applyArbEvent, recOnResult, hs, h]

theorem runArb_fixed :
    ∀ (es : List ArbEvent) (s : ArbState), s.answered = true →
      runArbEvents s es = s := by
  intro es
  induction es with
  | nil => intro s _; rfl
  | cons e es ih =>
    intro s h
    have he : runArbEvents s (e :: es) = runArbEvents (applyArbEvent s e) es := rfl
    rw [he, applyArb_of_answered s e h]
    exact ih s h

theorem runArb_char :
    ∀ (es : List ArbEvent) (s : ArbState), s.answered = false →
      runArbEvents s es =
        (match firstLabel es with
         | none => s
         | some l =>
           { s with answered := true, choicesLocked := true, recActive := false,
                    handoffs := s.handoffs ++ [l] }) := by
  intro es
  induction es with
  | nil => intro s _; rfl
  | cons e es ih =>
    intro s hs
    have he : runArbEvents s (e :: es) = runArbEvents (applyArbEvent s e) es := rfl
    cases hl : eventLabel e with
    | none =>
      rw [he, applyArb_of_none s e hl, ih s hs]
      simp [firstLabel, hl]
    | some l =>
      rw [he, applyArb_of_some s e l hs hl, runArb_fixed es _ rfl]
      simp [firstLabel, hl]

theorem countCorrect_cons (r : Record) (l : List Record) :
    countCorrect (r :: l) = (if r.correct ≠ 0 then 1 else 0) + countCorrect l := by
  simp only [countCorrect, List.filter_cons]
  by_cases hc : r.correct = 0
  · simp [hc]
  · simp [hc, Nat.add_comm]

theorem foldl_count (l : List Record) :
    ∀ n : ℚ, l.foldl (fun s r => s + (if r.correct ≠ 0 then 1 else 0)) n
      = n + (countCorrect l : ℚ) := by
  induction l with
  | nil => intro n; simp [countCorrect]
  | cons r l ih =>
    intro n
    rw [List.foldl_cons, ih, countCorrect_cons]
    by_cases hc : r.correct = 0
    · simp [hc]
    · simp only [hc, ne_eq, not_false_iff, if_true, if_pos]
      push_cast
      ring

theorem foldl_sum (l : List ℚ) :
    ∀ n : ℚ, l.foldl (fun s v => s + v) n = n + l.sum := by
  induction l with
  | nil => intro n; simp
  | cons x l ih => intro n; rw [List.foldl_cons, ih, List.sum_cons]; ring

theorem undouble_dqL : ∀ l : List Char, undoubleL (dqL l) = l := by
  intro l
  induction l with
  | nil => rfl
  | cons c cs ih =>
    by_cases hc : c = '"'
    · subst hc
      rw [show dqL ('"' :: cs) = '"' :: '"' :: dqL cs from by simp [dqL]]
      rw [show undoubleL ('"' :: '"' :: dqL cs) = '"' :: undoubleL (dqL cs) from
        by simp [undoubleL]]
      rw [ih]
    · rw [show dqL (c :: cs) = c :: dqL cs from by simp [dqL, hc]]
      cases hd : dqL cs with
      | nil =>
        have hcs : cs = [] := by
          cases cs with
          | nil => rfl
          | cons x xs => by_cases hx : x = '"' <;> simp [dqL, hx] at hd
        subst hcs
        simp [undoubleL]
      | cons x xs =>
        rw [show undoubleL (c :: x :: xs) = c :: undoubleL (x :: xs) from by
          simp only [undoubleL]
          rw [if_neg]
          intro hand
          exact hc hand.1]
        rw [← hd, ih]

theorem escL_not_special (l : List Char) (h : l.any isCsvSpecial = false) :
    escL l = l := by
  simp [escL, h]

theorem readFieldL_not_special (l : List Char)
    (h : l.any isCsvSpecial = false) : readFieldL l = l := by
  cases l with
  | nil => rfl
  | cons c rest =>
    simp only [List.any_cons, Bool.or_eq_false_iff] at h
    have hq : ¬c = '"' := by
      intro hc
      subst hc
      simp [isCsvSpecial] at h
    simp [readFieldL, hq]

theorem roundtripL (l : List Char) : readFieldL (escL l) = l := by
  by_cases h : l.any isCsvSpecial = true
  · rw [show escL l = '"' :: (dqL l ++ ['"']) from by simp [escL, h]]
    rw [show readFieldL ('"' :: (dqL l ++ ['"']))
        = undoubleL ((dqL l ++ ['"']).dropLast) from by simp [readFieldL]]
    rw [List.dropLast_concat]
    exact undouble_dqL l
  · have h' : l.any isCsvSpecial = false := by simpa using h
    rw [escL_not_special l h', readFieldL_not_special l h']

/-! ## Claim theorems -/

/-- C3: every trial produced by the generator satisfies the congruency
derivation (`congruency = 'congruent'` iff `word = ink`), has
`correct_answer = ink`, and its two choice labels form the unordered pair
`{word, ink}`. -/
theorem stroop_C3 (n : Nat) (rate : Option ℚ) (rs : List TrialRand)
    (ts : List Trial) (h : generateTrials n rate rs = some ts)
    (t : Trial) (ht : t ∈ ts) :
    (t.congruency = "congruent" ↔ t.word = t.ink) ∧
    t.correct_answer = t.ink ∧
    ({t.choice_left, t.choice_right} : Multiset String) = {t.word, t.ink} := by
  obtain ⟨i', r, _, hm⟩ := gtf_mem n 0 rate rs ts h t ht
  exact makeTrial_spec i' rate r t hm

/-- Witness for C3 at a concrete generator run. -/
theorem stroop_C3_witness :
    (tC3.congruency = "congruent" ↔ tC3.word = tC3.ink) ∧
    tC3.correct_answer = tC3.ink ∧
    ({tC3.choice_left, tC3.choice_right} : Multiset String) = {tC3.word, tC3.ink} :=
  stroop_C3 1 (some 1) rsC3 [tC3] (by decide) tC3 (by decide)

/-- C4: a trial whose Bernoulli draw selects incongruent gets `word ≠ ink`
(the second color is re-drawn until distinct), and with rate 1.0 every draw
in [0,1) selects incongruent, so `{nTrials: 3, inconRate: 1.0}` yields
exactly 3 trials, all with `word ≠ ink`. -/
theorem stroop_C4 :
    (∀ (i : Nat) (rate : Option ℚ) (r : TrialRand) (t : Trial),
       makeTrial i rate r = some t → bernoulliIncon r.u rate = true →
       t.word ≠ t.ink) ∧
    (∀ (rs : List TrialRand) (ts : List Trial),
       (∀ r ∈ rs, 0 ≤ r.u ∧ r.u < 1) →
       generateTrials 3 (some 1) rs = some ts →
       ts.length = 3 ∧ ∀ t ∈ ts, t.word ≠ t.ink) := by
  refine ⟨makeTrial_incon, ?_⟩
  intro rs ts hu h
  refine ⟨gtf_length 3 0 (some 1) rs ts h, ?_⟩
  intro t ht
  obtain ⟨i', r, hr, hm⟩ := gtf_mem 3 0 (some 1) rs ts h t ht
  have hb : bernoulliIncon r.u (some 1) = true := by
    simp only [bernoulliIncon, decide_eq_true_eq]
    exact (hu r hr).2
  exact makeTrial_incon i' (some 1) r t hm hb

/-- Witness for C4 at a concrete 3-trial rate-1 run. -/
theorem stroop_C4_witness : tsC4.length = 3 ∧ tC4.word ≠ tC4.ink :=
  ⟨(stroop_C4.2 [rC4, rC4, rC4] tsC4 (by decide) (by decide)).1,
   (stroop_C4.2 [rC4, rC4, rC4] tsC4 (by decide) (by decide)).2 tC4 (by decide)⟩

/-- C1: dispatching any event sequence on one armed trial hands off exactly
the label of the first event that resolves (at most one Response Record
hand-off, corresponding to the first accepted event, which also sets the
`answered` latch), and any event arriving once the latch is set leaves the
arbitration state untouched. -/
theorem stroop_C1 :
    (∀ es : List ArbEvent,
       (runArbEvents armedArb es).handoffs = (firstLabel es).toList ∧
       (runArbEvents armedArb es).answered = (firstLabel es).isSome) ∧
    (∀ (s : ArbState) (e : ArbEvent), s.answered = true →
       applyArbEvent s e = s) := by
  refine ⟨?_, applyArb_of_answered⟩
  intro es
  rw [runArb_char es armedArb rfl]
  cases hl : firstLabel es with
  | none => simp [armedArb]
  | some l => simp [armedArb]

/-- Witness for C1: on `esC1` exactly the first resolving event (the tap on
RED) is handed off, and an event arriving at a latched state is a no-op. -/
theorem stroop_C1_witness :
    (runArbEvents armedArb esC1).handoffs = ["RED"] ∧
    applyArbEvent arbDone (ArbEvent.tap "GREEN") = arbDone :=
  ⟨((stroop_C1.1 esC1).1).trans (by decide),
   stroop_C1.2 arbDone (ArbEvent.tap "GREEN") rfl⟩

/-- C10: with the practice flag set, `startTest` starts the practice phase
with a batch of literal size 2, whatever trial count is configured; the
practice-to-test transition of `presentTrial` is what generates a batch of
the configured size. -/
theorem stroop_C10 :
    (∀ (s : Session) (inp : RawInputs) (rand : List TrialRand) (s' : Session),
       inp.practice = true → startTest s inp rand = some s' →
       s'.phase = "practice" ∧ s'.trials.length = 2) ∧
    (∀ (s : Session) (rand : List TrialRand) (s' : Session),
       s.phase = "practice" → s.trials[s.idx]? = none →
       presentTrialSync s rand = some s' →
       s'.phase = "test" ∧ s'.trials.length = trialCount s.settings.nTrials) := by
  constructor
  · intro s inp rand s' hp h
    simp only [startTest, hp, if_true, Option.bind_eq_some] at h
    obtain ⟨ts, hts, hpres⟩ := h
    have hlen : ts.length = 2 := gtf_length 2 0 _ rand ts hts
    have hsome :
        (((startBatch (applyInputs s inp) "practice" ts)).trials[
          (startBatch (applyInputs s inp) "practice" ts).idx]?).isSome = true := by
      rw [startBatch_trials, startBatch_idx]
      cases ts with
      | nil => simp at hlen
      | cons t ts' => simp
    obtain ⟨-, hph, htr, -, -⟩ :=
      presentTrialSync_spec _ rand s' hpres (Or.inr hsome)
    constructor
    · rw [hph, startBatch_phase]
    · rw [htr, startBatch_trials]; exact hlen
  · intro s rand s' hp hget h
    simp only [presentTrialSync, hget, hp, if_true, Option.bind_eq_some] at h
    obtain ⟨ts, hts, hinner⟩ := h
    have hlen : ts.length = trialCount s.settings.nTrials :=
      gtf_length _ 0 _ rand ts hts
    cases h0 : ts[0]? with
    | some trial =>
      rw [h0] at hinner
      simp only [Option.some_inj] at hinner
      subst hinner
      exact ⟨rfl, hlen⟩
    | none =>
      rw [h0] at hinner
      simp only [Option.some_inj] at hinner
      subst hinner
      exact ⟨rfl, hlen⟩

/-- Witness for C10: the practice batch has size 2 although 5 test trials
are configured. -/
theorem stroop_C10_witness : sC10.phase = "practice" ∧ sC10.trials.length = 2 :=
  stroop_C10.1 sInit inpC10 [⟨0, [0, 1], 0⟩, ⟨0, [0, 1], 0⟩] sC10 rfl rfl

/-- C7 (amended): `startTest` performs no validation or clamping at all; the
parsed trial count and incongruent rate are stored as-is (NaN included), a
run starts for every input, and with the practice flag off the generated
batch has `trialCount` elements, which is 0 for a NaN or non-positive
count because the generation loop body never runs. -/
theorem stroop_C7 (s : Session) (inp : RawInputs) (rand : List TrialRand)
    (s' : Session) (h : startTest s inp rand = some s') :
    s'.settings.nTrials = inp.nTrialsVal ∧
    s'.settings.inconRate = inp.inconRateVal ∧
    s'.phase = (if inp.practice then "practice" else "test") ∧
    (inp.practice = false → s'.trials.length = trialCount inp.nTrialsVal) := by
  cases hp : inp.practice with
  | true =>
    simp only [startTest, hp, if_true, Option.bind_eq_some] at h
    obtain ⟨ts, hts, hpres⟩ := h
    have hlen : ts.length = 2 := gtf_length 2 0 _ rand ts hts
    have hsome :
        (((startBatch (applyInputs s inp) "practice" ts)).trials[
          (startBatch (applyInputs s inp) "practice" ts).idx]?).isSome = true := by
      rw [startBatch_trials, startBatch_idx]
      cases ts with
      | nil => simp at hlen
      | cons t ts' => simp
    obtain ⟨hset, hph, -, -, -⟩ :=
      presentTrialSync_spec _ rand s' hpres (Or.inr hsome)
    rw [hset, startBatch_settings, applyInputs_settings]
    refine ⟨rfl, rfl, ?_, ?_⟩
    · rw [hph, startBatch_phase]; simp
    · intro hf
      simp at hf
  | false =>
    simp only [startTest, hp, Bool.false_eq_true, if_false, Option.bind_eq_some] at h
    obtain ⟨ts, hts, hpres⟩ := h
    have hlen : ts.length = trialCount inp.nTrialsVal :=
      gtf_length _ 0 _ rand ts hts
    obtain ⟨hset, hph, htr, -, -⟩ :=
      presentTrialSync_spec _ rand s' hpres
        (Or.inl (by rw [startBatch_phase]; decide))
    rw [hset, startBatch_settings, applyInputs_settings]
    refine ⟨rfl, rfl, ?_, fun _ => ?_⟩
    · rw [hph, startBatch_phase]; simp
    · rw [htr, startBatch_trials]; exact hlen

/-- Counterexample for C7 as stated: with a NaN trial count and rate 2.0 the
run still starts (the phase leaves `setup` and becomes `test`) and both
invalid values are stored unrejected and unclamped. -/
theorem stroop_C7_cex :
    (startTest sInit inpBad []).map Session.phase = some "test" ∧
    (startTest sInit inpBad []).map (fun s => s.settings.nTrials) = some none ∧
    (startTest sInit inpBad []).map (fun s => s.settings.inconRate) =
      some (some 2) := by
  refine ⟨rfl, rfl, rfl⟩

/-- Witness for the amended C7 at the invalid concrete inputs. -/
theorem stroop_C7_witness :
    sBad7.settings.nTrials = none ∧ sBad7.settings.inconRate = some 2 ∧
    sBad7.phase = (if inpBad.practice then "practice" else "test") ∧
    sBad7.trials.length = trialCount none := by
  have h : startTest sInit inpBad [] = some sBad7 := rfl
  exact ⟨(stroop_C7 sInit inpBad [] sBad7 h).1,
         (stroop_C7 sInit inpBad [] sBad7 h).2.1,
         (stroop_C7 sInit inpBad [] sBad7 h).2.2.1,
         (stroop_C7 sInit inpBad [] sBad7 h).2.2.2 rfl⟩

/-- C5: `recordAnswer` appends exactly one Response Record when the phase is
`test`, and appends nothing when the phase is `practice` (every record
present afterwards was already there). -/
theorem stroop_C5 :
    (∀ (s : Session) (chosen : String) (t1 : ℚ) (tsStamp : String)
       (rand : List TrialRand) (trial : Trial) (s' : Session),
       s.phase = "test" → s.trials[s.idx]? = some trial →
       recordAnswer s chosen t1 tsStamp rand = some s' →
       s'.results = s.results ++ [mkRecord s trial chosen t1 tsStamp]) ∧
    (∀ (s : Session) (chosen : String) (t1 : ℚ) (tsStamp : String)
       (rand : List TrialRand) (s' : Session),
       s.phase = "practice" →
       recordAnswer s chosen t1 tsStamp rand = some s' →
       ∀ r ∈ s'.results, r ∈ s.results) := by
  constructor
  · intro s chosen t1 tsStamp rand trial s' hp hget h
    simp only [recordAnswer, hget] at h
    rw [if_pos (show (stopRecognition s).phase = "test" from by
      rw [stopRecognition_phase, hp])] at h
    obtain ⟨-, -, -, hres, -⟩ :=
      presentTrialSync_spec _ rand s' h (Or.inl (by
        rw [advanceIdx_phase, pushRecord_phase, stopRecognition_phase, hp]
        decide))
    rw [hres, advanceIdx_results, pushRecord_results, stopRecognition_results,
        mkRecord_stopRecognition]
  · intro s chosen t1 tsStamp rand s' hp h
    cases hget : s.trials[s.idx]? with
    | none => simp [recordAnswer, hget] at h
    | some trial =>
      simp only [recordAnswer, hget] at h
      rw [if_neg (show ¬(stopRecognition s).phase = "test" from by
        rw [stopRecognition_phase, hp]; decide)] at h
      rcases (presentTrialSync_shape _ rand s' h).2 with hres | hres
      · intro r hr
        rw [hres, advanceIdx_results, stopRecognition_results] at hr
        exact hr
      · intro r hr
        rw [hres] at hr
        simp at hr

/-- Witness for C5: recording a test-phase answer appends exactly the built
record. -/
theorem stroop_C5_witness :
    sAfter5.results = sTest5.results ++ [mkRecord sTest5 trialW5 "BLUE" 450 "t"] :=
  stroop_C5.1 sTest5 "BLUE" 450 "t" [] trialW5 sAfter5 rfl rfl rfl

/-- C2: the recorded reaction time is the response-instant clock reading
minus the clock reading captured by the presentation timeout callback (the
stimulus-visible instant, after the jitter delay), rounded by `Math.round`;
it is nonnegative whenever the clock is monotone, and scheduling a trial
(`presentTrial` itself) does not touch the stored onset timestamp — only the
timeout callback does. -/
theorem stroop_C2 (s : Session) (trial : Trial) (chosen : String)
    (tVis t1 : ℚ) (tsStamp : String) (h : tVis ≤ t1) :
    (mkRecord (presentTimerFire s trial tVis) trial chosen t1 tsStamp).rt_ms
        = round (t1 - tVis) ∧
    0 ≤ (mkRecord (presentTimerFire s trial tVis) trial chosen t1 tsStamp).rt_ms ∧
    (∀ (rand : List TrialRand) (s' : Session),
       presentTrialSync s rand = some s' → s'.t0 = s.t0) := by
  have ht0 : (presentTimerFire s trial tVis).t0 = tVis := by
    show (startRecognitionForTrial (revealTrial s trial tVis)).t0 = tVis
    rw [startRecognitionForTrial_t0, revealTrial_t0]
  refine ⟨?_, ?_, ?_⟩
  · show round (t1 - (presentTimerFire s trial tVis).t0) = round (t1 - tVis)
    rw [ht0]
  · show (0 : ℤ) ≤ round (t1 - (presentTimerFire s trial tVis).t0)
    rw [ht0, round_eq]
    exact Int.floor_nonneg.mpr (by linarith)
  · intro rand s' hps
    exact (presentTrialSync_shape s rand s' hps).1

/-- Witness for C2 at concrete clock readings 300 and 451 ms. -/
theorem stroop_C2_witness :
    (mkRecord (presentTimerFire sInit trialW2 300) trialW2 "GREEN" 451
        "t").rt_ms = 151 ∧
    0 ≤ (mkRecord (presentTimerFire sInit trialW2 300) trialW2 "GREEN" 451
        "t").rt_ms ∧
    sSched2.t0 = sPre2.t0 :=
  ⟨((stroop_C2 sInit trialW2 "GREEN" 300 451 "t" (by decide)).1).trans
      (by norm_num [round_eq]),
   (stroop_C2 sInit trialW2 "GREEN" 300 451 "t" (by decide)).2.1,
   (stroop_C2 sPre2 trialW2 "GREEN" 300 451 "t" (by decide)).2.2 []
     sSched2 rfl⟩

/-- Counterexample for C6 as stated: after an abort, the outstanding
presentation timeout is not a harmless no-op — when it fires it mutates
session state, overwriting the stimulus-onset timestamp `t0` (here from 100
to 999); the callback performs no phase check. -/
theorem stroop_C6_cex :
    (presentTimerFire (abortClick sRun6) trialC6 999).t0 ≠
      (abortClick sRun6).t0 := by
  decide

/-- C6 (amended): abort or restart from any phase resets the phase to
`setup`, clears the trial and results lists and stops any active speech
session; but an outstanding presentation timer stays scheduled, and when it
fires it re-renders the captured stale trial into the choice controls,
unlocks them and overwrites `t0` (it performs no phase check) — while
leaving phase, trials, results and recognition untouched (no recognizer
instance ever exists, so none can be restarted). -/
theorem stroop_C6 (s : Session) (trial : Trial) (now : ℚ)
    (hrec : s.recog = false) :
    (abortClick s).phase = "setup" ∧ (abortClick s).trials = [] ∧
    (abortClick s).results = [] ∧ (abortClick s).recActive = false ∧
    (restartClick s).phase = "setup" ∧ (restartClick s).trials = [] ∧
    (restartClick s).results = [] ∧ (restartClick s).recActive = false ∧
    presentTimerFire (abortClick s) trial now =
      revealTrial (abortClick s) trial now := by
  refine ⟨rfl, rfl, rfl, rfl, rfl, rfl, rfl, rfl, ?_⟩
  exact startRecognitionForTrial_of_norec _
    (by rw [revealTrial_recog, abortClick_recog]; exact hrec)

/-- C8: the summary values on the done screen are all the unavailable
sentinel (not zero) when no records exist; for non-empty records the
accuracy percentage is round((count correct / total) * 100) and the mean is
the rounded arithmetic mean of the reaction times; the example list
[{rt 100, correct}, {rt 300, incorrect}] gives accuracy 50, mean 200 and
median 200 (even-length rule: average of the two middle values), and a
3-record list shows the odd-length rule taking the middle value. -/
theorem stroop_C8 :
    finishDisplay [] = (none, none, none) ∧
    (∀ results : List Record, results ≠ [] →
       (finishDisplay results).1 =
         some (round (((countCorrect results : ℚ) / results.length) * 100)) ∧
       (finishDisplay results).2.1 =
         some (round ((results.map (fun r => (r.rt_ms : ℚ))).sum /
           results.length))) ∧
    finishDisplay [recA, recB] = (some 50, some 200, some 200) ∧
    finishDisplay [recA, recB, recC] = (some 67, some 217, some 250) := by
  refine ⟨rfl, ?_, ?_, ?_⟩
  · intro results hne
    have hlen : results.length ≠ 0 := fun h => hne (List.length_eq_zero.mp h)
    constructor
    · simp only [finishDisplay, hlen, if_neg, if_false, List.length_map]
      rw [foldl_count, zero_add]
    · simp only [finishDisplay, mean, hlen, if_neg, if_false, List.length_map]
      rw [foldl_sum, zero_add]
      simp [hlen]
  · norm_num [finishDisplay, mean, median, sortAsc, insertAsc, recA, recB,
      round_eq]
  · norm_num [finishDisplay, mean, median, sortAsc, insertAsc, recA, recB,
      recC, round_eq]

/-- Witness for C8 on the non-empty example list. -/
theorem stroop_C8_witness :
    (finishDisplay [recA, recB]).1 =
      some (round (((countCorrect [recA, recB] : ℚ) /
        ([recA, recB] : List Record).length) * 100)) ∧
    (finishDisplay [recA, recB]).2.1 =
      some (round ((([recA, recB] : List Record).map
        (fun r => (r.rt_ms : ℚ))).sum / ([recA, recB] : List Record).length)) :=
  stroop_C8.2.1 [recA, recB] (by simp)

/-- C9: `toCSV` emits the header row of the first record's field names
followed by one row per record in the same field order; a value containing
a comma, quote or newline is emitted wrapped in double quotes with inner
quotes doubled, and any escaped value reads back to the original string
under a standard RFC4180-style field reader. -/
theorem stroop_C9 :
    (∀ (r0 : Row) (rs : List Row),
       toCSV (r0 :: rs) =
         String.intercalate "\n"
           ((String.intercalate ","
              ((r0.map (fun kv => kv.1)).map (fun h => escString h))) ::
            (r0 :: rs).map (fun r =>
              String.intercalate ","
                ((r0.map (fun kv => kv.1)).map
                  (fun h => escValue (rowGet r h)))))) ∧
    (∀ s : String, s.data.any isCsvSpecial = true →
       escString s = String.mk ('"' :: (dqL s.data ++ ['"']))) ∧
    (∀ s : String, readField (escString s) = s) := by
  refine ⟨fun r0 rs => rfl, ?_, ?_⟩
  · intro s h
    simp [escString, escL, h]
  · intro s
    show String.mk (readFieldL (escL s.data)) = s
    rw [roundtripL]

/-- Witness for C9 at a value containing a comma, a quote and a newline. -/
theorem stroop_C9_witness :
    escString csvProbe = String.mk ('"' :: (dqL csvProbe.data ++ ['"'])) ∧
    readField (escString csvProbe) = csvProbe :=
  ⟨stroop_C9.2.1 csvProbe (by decide), stroop_C9.2.2 csvProbe⟩

/-- Witness for the amended C6 at the concrete aborted session `sRun6`. -/
theorem stroop_C6_witness :
    (abortClick sRun6).phase = "setup" ∧ (abortClick sRun6).trials = [] ∧
    (abortClick sRun6).results = [] ∧ (abortClick sRun6).recActive = false ∧
    (restartClick sRun6).phase = "setup" ∧ (restartClick sRun6).trials = [] ∧
    (restartClick sRun6).results = [] ∧ (restartClick sRun6).recActive = false ∧
    presentTimerFire (abortClick sRun6) trialC6 999 =
      revealTrial (abortClick sRun6) trialC6 999 :=
  stroop_C6 sRun6 trialC6 999 rfl

end Stroop
